import Mathlib

/-!
Verification of the Campus-Wifi-Connector credential vault, validators and
auth service, as a shallow embedding of the Python sources
(`src/utils/validators.py`, `src/utils/storage.py`,
`src/services/auth_service.py`) in Lean.

Modelling conventions:
* Python strings are `List Char` (`PyStr`); `ord` is `Char.toNat`.
* Python dynamic values at validator entry points are `PyVal`
  (`None`, `bool`, `int`, `str`); a `TypeError` raised by `len()` on a
  value without a length is modelled with `Except`.
* The Fernet cipher of the `cryptography` library is modelled symbolically
  by its authenticated-encryption contract: a ciphertext decrypts under a
  key if and only if it is a well-formed token produced under exactly that
  key; any other byte string (wrong key, tampered or corrupt bytes, plain
  text) fails integrity verification and decryption raises, which the
  storage code catches.  JSON (de)serialization of the structured records
  the vault writes (string-keyed dicts of JSON-safe values) is modelled as
  the identity on a `JVal` tree, which is faithful for the values the code
  serializes.
* Files on disk are an association list from file name to `FileData`;
  `os.remove` failures are modelled by an oracle `fail : PyStr → Bool`
  saying which removals raise `OSError`.
* `time.time()` is passed in explicitly as a natural number of seconds.
-/

set_option maxRecDepth 4096

/-- Python strings, one `Char` per code point. -/
abbrev PyStr := List Char

/-- Convenience: the character list of a literal. -/
def str (s : String) : PyStr := s.data

/-- Characters Python's `str.strip()` (no arguments) removes: exactly the
characters for which `str.isspace()` holds (ASCII whitespace, the ASCII
separator controls, and the Unicode space/separator code points). -/
def pyIsSpaceChar (c : Char) : Bool :=
  c = ' ' || c = '\t' || c = '\n' || c = '\r' ||
  c.toNat = 0x0b || c.toNat = 0x0c ||
  (0x1c ≤ c.toNat && c.toNat ≤ 0x1f) ||
  c.toNat = 0x85 || c.toNat = 0xa0 || c.toNat = 0x1680 ||
  (0x2000 ≤ c.toNat && c.toNat ≤ 0x200a) ||
  c.toNat = 0x2028 || c.toNat = 0x2029 ||
  c.toNat = 0x202f || c.toNat = 0x205f || c.toNat = 0x3000

/-- Python `s.lstrip()`. -/
def pyLStrip (s : PyStr) : PyStr := s.dropWhile pyIsSpaceChar

/-- Python `s.rstrip()`. -/
def pyRStrip (s : PyStr) : PyStr := (s.reverse.dropWhile pyIsSpaceChar).reverse

/-- Python `s.strip()`: drop whitespace from both ends. -/
def pyStrip (s : PyStr) : PyStr := pyRStrip (pyLStrip s)

/-- Python `s.isspace()`: non-empty and all characters whitespace. -/
def pyIsSpaceStr (s : PyStr) : Bool := !s.isEmpty && s.all pyIsSpaceChar

/-- The character filter of `InputValidator.sanitize_input`
(`validators.py:180`): keep `char` when `ord(char) >= 32 or char in '\t\n\r'`. -/
def sanitizeKeep (c : Char) : Bool :=
  32 ≤ c.toNat || c = '\t' || c = '\n' || c = '\r'

/-- Python slicing `s[:n]` as used for truncation: `if len(s) > n: s = s[:n]`. -/
def truncAt (n : Nat) (s : PyStr) : PyStr :=
  if s.length > n then s.take n else s

/-- `InputValidator.sanitize_input(input_str, max_length)` restricted to
string input (`validators.py:174-187`): remove control characters except
tab/LF/CR, truncate to `max_length`, then strip surrounding whitespace.
The guard `if not input_str or not isinstance(input_str, str): return ""`
is the empty-string test here; non-string input is handled at the `PyVal`
level by `sanitize_input`. -/
def sanitize_input_str (s : PyStr) (maxLength : Nat) : PyStr :=
  if s = [] then []
  else pyStrip (truncAt maxLength (s.filter sanitizeKeep))

/-- `InputValidator.clean_ssid(ssid)` restricted to string input
(`validators.py:300-315`): strip surrounding whitespace, then remove the
characters with `ord(char) < 32` (note: the code keeps `DEL` = 127 and
filters only after stripping), then truncate to 32 code points. -/
def clean_ssid_str (s : PyStr) : PyStr :=
  if s = [] then []
  else truncAt 32 ((pyStrip s).filter (fun c => 32 ≤ c.toNat))

/-! ### Character classes used by the validator regexes (`validators.py`) -/

/-- ASCII letter. -/
def isAsciiAlpha (c : Char) : Bool :=
  ('a' ≤ c && c ≤ 'z') || ('A' ≤ c && c ≤ 'Z')

/-- ASCII letter or digit. -/
def isAsciiAlnum (c : Char) : Bool := isAsciiAlpha c || c.isDigit

/-- Regex class `[a-zA-Z0-9._@-]` of `validate_username`. -/
def usernameChar (c : Char) : Bool :=
  isAsciiAlnum c || c = '.' || c = '_' || c = '@' || c = '-'

/-- Regex class `[a-zA-Z0-9._%+-]` (email local part). -/
def emailLocalChar (c : Char) : Bool :=
  isAsciiAlnum c || c = '.' || c = '_' || c = '%' || c = '+' || c = '-'

/-- Regex class `[a-zA-Z0-9.-]` (email domain part). -/
def emailDomainChar (c : Char) : Bool :=
  isAsciiAlnum c || c = '.' || c = '-'

/-- Regex class `[a-zA-Z0-9-]` (inner characters of a domain label). -/
def labelInnerChar (c : Char) : Bool := isAsciiAlnum c || c = '-'

/-- Regex class `\w`, restricted to ASCII `[a-zA-Z0-9_]` (the Python `re`
module also matches non-ASCII word characters; the denylist patterns of
`is_safe_string` target ASCII markers, where the two coincide). -/
def isWordChar (c : Char) : Bool := isAsciiAlnum c || c = '_'

/-- Regex class `\s` for `str` patterns: the same set as `str.isspace()`. -/
def reSpaceChar (c : Char) : Bool := pyIsSpaceChar c

/-- Hexadecimal digit `[0-9A-Fa-f]`. -/
def isHexDigitChar (c : Char) : Bool :=
  c.isDigit || ('a' ≤ c && c ≤ 'f') || ('A' ≤ c && c ≤ 'F')

/-- ASCII lower-casing, modelling Python `str.lower()` on the ASCII range
(the validators' patterns only distinguish ASCII letters). -/
def asciiLower (c : Char) : Char :=
  if 'A' ≤ c && c ≤ 'Z' then Char.ofNat (c.toNat + 32) else c

/-- Python `s.lower()` (ASCII model). -/
def lowerStr (s : PyStr) : PyStr := s.map asciiLower

/-- Semantics of Python's `$` anchor in `re.match(pat + '$', s)`: the body
must span the whole string, or the whole string minus a single trailing
newline (`$` also matches just before a final `'\n'`). -/
def matchDollar (body : PyStr → Bool) (s : PyStr) : Bool :=
  body s || (s.getLast? = some '\n' && body s.dropLast)

/-- Matcher for `re.match(r'^[class]+$', s)`: one or more characters of the
class spanning the string (modulo the trailing-newline behaviour of `$`). -/
def matchClassPlusDollar (p : Char → Bool) (s : PyStr) : Bool :=
  matchDollar (fun t => !t.isEmpty && t.all p) s

/-! ### String-level validator cores (`validators.py`), for string input
that already passed the `if not x or not isinstance(x, str)` guard. -/

/-- `InputValidator.validate_username` on a (non-empty) string
(`validators.py:12-29`): strip, length in [2,100], all characters in
`[a-zA-Z0-9._@-]`. -/
def validate_username_str (s : PyStr) : Bool :=
  let u := pyStrip s
  if u.length < 2 || u.length > 100 then false
  else matchClassPlusDollar usernameChar u

/-- `InputValidator.validate_password` on a (non-empty) string
(`validators.py:31-44`): length in [4,256] and not whitespace-only. -/
def validate_password_str (s : PyStr) : Bool :=
  if s.length < 4 || s.length > 256 then false
  else if pyIsSpaceStr s then false
  else true

/-- `InputValidator.validate_campus_ssid` on a (non-empty) string
(`validators.py:46-64`): strip, length in [1,32], and no character with
`ord(char) < 32 or ord(char) == 127`. -/
def validate_campus_ssid_str (s : PyStr) : Bool :=
  let t := pyStrip s
  if t.length < 1 || t.length > 32 then false
  else t.all fun c => !(c.toNat < 32 || c.toNat = 127)

/-- Splits a string at its last `'.'`, returning the parts before and after
it when a dot exists.  Helper for the email regex. -/
def splitAtLastDot (s : PyStr) : Option (PyStr × PyStr) :=
  match s.reverse.splitOn '.' |>.head? , s.reverse.dropWhile (· ≠ '.') with
  | _, [] => none
  | some revTld, _ :: revRest => some (revRest.reverse, revTld.reverse)
  | none, _ => none

/-- Matcher for the email regex
`^[a-zA-Z0-9._%+-]+@[a-zA-Z0-9.-]+\.[a-zA-Z]{2,}$` (`validators.py:72`).
Neither character class contains `'@'`, so a match splits uniquely at the
first `'@'`; everything after the last `'.'` of the domain part must be two
or more ASCII letters, and the part between `'@'` and that dot must be a
non-empty string over `[a-zA-Z0-9.-]`. -/
def emailRegexBody (s : PyStr) : Bool :=
  let local_ := s.takeWhile (· ≠ '@')
  match s.dropWhile (· ≠ '@') with
  | '@' :: domainPart =>
    (!local_.isEmpty && local_.all emailLocalChar) &&
    (match splitAtLastDot domainPart with
     | some (mid, tld) =>
       !mid.isEmpty && mid.all emailDomainChar &&
       tld.length ≥ 2 && tld.all isAsciiAlpha
     | none => false)
  | _ => false

/-- `InputValidator.validate_email` on a (non-empty) string
(`validators.py:66-81`): the email regex, then `len(email) <= 254`. -/
def validate_email_str (s : PyStr) : Bool :=
  if !matchDollar emailRegexBody s then false
  else if s.length > 254 then false
  else true

/-- One label of the domain regex
`[a-zA-Z0-9]([a-zA-Z0-9-]{0,61}[a-zA-Z0-9])?`: alphanumeric ends, inner
characters in `[a-zA-Z0-9-]`, length at most 63. -/
def validDomainLabel (l : PyStr) : Bool :=
  match l with
  | [] => false
  | [c] => isAsciiAlnum c
  | c :: rest =>
    isAsciiAlnum c && l.length ≤ 63 &&
    (match rest.getLast? with
     | some d => isAsciiAlnum d && rest.dropLast.all labelInnerChar
     | none => false)

/-- `InputValidator.validate_domain` on a (non-empty) string
(`validators.py:83-101`): strip and lower-case, length in [1,253], then
dot-separated labels each matching the label pattern (the regex matches
labels joined by `'.'`, so an empty label — leading, trailing or doubled
dots — fails).  Stripping removes any trailing newline, so the `$` anchor
nuance is unreachable here and the split is exact. -/
def validate_domain_str (s : PyStr) : Bool :=
  let d := lowerStr (pyStrip s)
  if d.length < 1 || d.length > 253 then false
  else (d.splitOn '.').all validDomainLabel

/-- Digits of an integer literal with `'_'` separators allowed between
digits, as accepted by Python `int(str)`: first character a digit, and each
later character a digit optionally preceded by a single underscore. -/
def intDigitsRest : PyStr → Bool
  | [] => true
  | '_' :: c :: rest => c.isDigit && intDigitsRest rest
  | c :: rest => c.isDigit && intDigitsRest rest

/-- Non-empty digit run (with `'_'` group separators) for `int(str)`. -/
def intDigitsOk : PyStr → Bool
  | [] => false
  | c :: rest => c.isDigit && intDigitsRest rest

/-- Numeric value of a digit/underscore run. -/
def digitsVal (ds : PyStr) : Nat :=
  (ds.filter (· ≠ '_')).foldl (fun a c => 10 * a + (c.toNat - 48)) 0

/-- Python `int(s)` on a string (modelled from the language contract, ASCII
digits): strip whitespace, optional sign, digits with underscore group
separators; `None` when `int` raises `ValueError`. -/
def pyParseInt (s : PyStr) : Option Int :=
  let t := pyStrip s
  match t with
  | '+' :: rest => if intDigitsOk rest then some (digitsVal rest) else none
  | '-' :: rest => if intDigitsOk rest then some (-(digitsVal rest : Int)) else none
  | rest => if intDigitsOk rest then some (digitsVal rest) else none

/-- `InputValidator.validate_port` on a (non-empty) string
(`validators.py:114-123`): `int(port)` must parse and lie in [1,65535]. -/
def validate_port_str (s : PyStr) : Bool :=
  match pyParseInt s with
  | some n => 1 ≤ n && n ≤ 65535
  | none => false

/-- One dotted-quad octet as accepted by the `ipaddress` library: 1-3 ASCII
digits, value at most 255, no leading zero. -/
def validIPv4Octet (o : PyStr) : Bool :=
  !o.isEmpty && o.length ≤ 3 && o.all Char.isDigit &&
  (o.headD '0' ≠ '0' || o.length = 1) &&
  digitsVal o ≤ 255

/-- IPv4 literal as accepted by `ipaddress.ip_address` (modelled from the
standard-library contract): exactly four octets separated by dots. -/
def validIPv4Str (s : PyStr) : Bool :=
  let parts := s.splitOn '.'
  parts.length = 4 && parts.all validIPv4Octet

/-- One IPv6 hextet: 1-4 hexadecimal digits. -/
def validHextet (h : PyStr) : Bool :=
  !h.isEmpty && h.length ≤ 4 && h.all isHexDigitChar

/-- IPv6 literal as accepted by `ipaddress.ip_address` (modelled from the
standard-library parsing algorithm): optional non-empty `%scope` suffix,
then colon-separated hextets with at most one `::` elision that must stand
for at least one zero group; the final part may be an embedded IPv4 literal
counting as two hextets. -/
def validIPv6Str (s : PyStr) : Bool :=
  -- split off the scope id at the first '%'
  let addr := s.takeWhile (· ≠ '%')
  let scopeOk :=
    match s.dropWhile (· ≠ '%') with
    | [] => true
    | '%' :: scope => !scope.isEmpty && scope.all (· ≠ '%')
    | _ => false
  let parts := addr.splitOn ':'
  -- an embedded IPv4 final part stands for two hextets (CPython expands it
  -- into two non-empty parts before the shape analysis)
  let lastIsV4 := (parts.getLastD []).contains '.'
  let hexParts := if lastIsV4 then parts.dropLast else parts
  let v4Ok := !lastIsV4 || validIPv4Str (parts.getLastD [])
  let effLen := parts.length + (if lastIsV4 then 1 else 0)
  let headEmpty := (hexParts.headD [' ']).isEmpty
  let tailEmpty := if lastIsV4 then false else (parts.getLastD [' ']).isEmpty
  -- empty parts at inner positions of the (expanded) list mark the '::'
  let innerParts := if lastIsV4 then hexParts.drop 1 else (hexParts.drop 1).dropLast
  let shapeOk :=
    if parts.length < 3 then false
    else match (innerParts.filter (·.isEmpty)).length with
    | 0 => effLen = 8 && !headEmpty && !tailEmpty
    | 1 =>
      let skipIdx := 1 + innerParts.findIdx (·.isEmpty)
      let hi := skipIdx - (if headEmpty then 1 else 0)
      let lo := (effLen - skipIdx - 1) - (if tailEmpty then 1 else 0)
      -- a leading/trailing lone ':' is only permitted as part of '::',
      -- and the elision must cover at least one zero group
      (!headEmpty || hi = 0) && (!tailEmpty || lo = 0) && hi + lo < 8
    | _ => false
  scopeOk && shapeOk && v4Ok &&
    (hexParts.filter (fun h => !h.isEmpty)).all validHextet

/-- `InputValidator.validate_ip_address` on a (non-empty) string
(`validators.py:103-112`): `ipaddress.ip_address(ip)` succeeds. -/
def validate_ip_address_str (s : PyStr) : Bool :=
  validIPv4Str s || validIPv6Str s

/-- Matcher for the URL regex body `https?://[^\s/$.?#].[^\s]*` with
`re.IGNORECASE` (`validators.py:131`): a case-insensitive `http://` or
`https://` scheme, one character outside `\s` and `/$.?#`, one further
character other than `'\n'` (the regex `.`), then non-whitespace. -/
def urlRegexBody (t : PyStr) : Bool :=
  let afterScheme : Option PyStr :=
    if lowerStr (t.take 8) = str "https://" then some (t.drop 8)
    else if lowerStr (t.take 7) = str "http://" then some (t.drop 7)
    else none
  match afterScheme with
  | some (c1 :: c2 :: rest) =>
    !reSpaceChar c1 && c1 ≠ '/' && c1 ≠ '$' && c1 ≠ '.' && c1 ≠ '?' && c1 ≠ '#' &&
    c2 ≠ '\n' && rest.all (fun c => !reSpaceChar c)
  | _ => false

/-- `InputValidator.validate_url` on a (non-empty) string
(`validators.py:125-140`): the URL regex, then `len(url) <= 2048`. -/
def validate_url_str (s : PyStr) : Bool :=
  if !matchDollar urlRegexBody s then false
  else if s.length > 2048 then false
  else true

/-- `InputValidator.validate_phone_number` on a (non-empty) string
(`validators.py:142-154`): drop every character outside `[\d+]`
(ASCII-digit model of `\d`), then match `^\+?[\d]{7,15}$`. -/
def validate_phone_number_str (s : PyStr) : Bool :=
  let cleaned := s.filter (fun c => c.isDigit || c = '+')
  let body : PyStr → Bool := fun ds =>
    7 ≤ ds.length && ds.length ≤ 15 && ds.all Char.isDigit
  match cleaned with
  | '+' :: ds => body ds
  | ds => body ds

/-- Matcher for `([0-9A-Fa-f]{2}[:-]){n}[0-9A-Fa-f]{2}`: `n` hex pairs each
followed by `':'` or `'-'`, then a final hex pair. -/
def macPairSep : Nat → PyStr → Bool
  | 0, [a, b] => isHexDigitChar a && isHexDigitChar b
  | n + 1, a :: b :: sep :: rest =>
    isHexDigitChar a && isHexDigitChar b && (sep = ':' || sep = '-') &&
      macPairSep n rest
  | _, _ => false

/-- Matcher for `([0-9A-Fa-f]{4}\.){n}[0-9A-Fa-f]{4}`: dot-grouped quads. -/
def macQuad : Nat → PyStr → Bool
  | 0, [a, b, c, d] =>
    isHexDigitChar a && isHexDigitChar b && isHexDigitChar c && isHexDigitChar d
  | n + 1, a :: b :: c :: d :: '.' :: rest =>
    isHexDigitChar a && isHexDigitChar b && isHexDigitChar c && isHexDigitChar d &&
      macQuad n rest
  | _, _ => false

/-- `InputValidator.validate_mac_address` on a (non-empty) string
(`validators.py:156-172`): one of the three regex alternatives
(separator pairs, dot-grouped quads, or 12 bare hex digits). -/
def validate_mac_address_str (s : PyStr) : Bool :=
  matchDollar (macPairSep 5) s ||
  matchDollar (macQuad 2) s ||
  matchDollar (fun t => t.length = 12 && t.all isHexDigitChar) s

/-- `InputValidator.validate_file_path` on a (non-empty) string
(`validators.py:283-298`): none of the characters `<>:"|?*`, and
`len(file_path) <= 260`. -/
def validate_file_path_str (s : PyStr) : Bool :=
  if ['<', '>', ':', '"', '|', '?', '*'].any (fun c => s.contains c) then false
  else if s.length > 260 then false
  else true

/-- Python `pattern in text` / plain substring search. -/
def containsSub (pat s : PyStr) : Bool :=
  s.tails.any (fun t => pat.isPrefixOf t)

/-- `re.search(r'on\w+\s*=', text)`: somewhere in the text, `on`, then one
or more word characters, optional whitespace, then `'='`.  Word and space
classes are disjoint from `'='`, so the greedy matcher is exact. -/
def searchOnAttr (s : PyStr) : Bool :=
  s.tails.any fun t =>
    match t with
    | 'o' :: 'n' :: rest =>
      !(rest.takeWhile isWordChar).isEmpty &&
      (match (rest.dropWhile isWordChar).dropWhile reSpaceChar with
       | '=' :: _ => true
       | _ => false)
    | _ => false

/-- `re.search(name + r'\s*\(', text)`: the literal `name`, optional
whitespace, then `'('`. -/
def searchCallPat (name : PyStr) (s : PyStr) : Bool :=
  s.tails.any fun t =>
    name.isPrefixOf t &&
    (match (t.drop name.length).dropWhile reSpaceChar with
     | '(' :: _ => true
     | _ => false)

/-- `InputValidator.is_safe_string` on a (non-empty) string
(`validators.py:317-346`): reject when the lower-cased text matches one of
the fixed injection patterns; when `allow_special` is false additionally
reject the presence of any of `< > " ' & \ / %` in the original text. -/
def is_safe_string_str (s : PyStr) (allowSpecial : Bool) : Bool :=
  let tl := lowerStr s
  if containsSub (str "<script") tl || containsSub (str "javascript:") tl ||
     containsSub (str "vbscript:") tl || searchOnAttr tl ||
     searchCallPat (str "eval") tl || searchCallPat (str "expression") tl ||
     searchCallPat (str "url") tl || containsSub (str "@import") tl then
    false
  else if !allowSpecial &&
      ['<', '>', '"', '\'', '&', '\\', '/', '%'].any (fun c => s.contains c) then
    false
  else true

/-! ### Dynamically-typed validator entry points

Each public validator starts with
`if not x or not isinstance(x, str): return False`, so `None`, booleans,
numbers and the empty string are rejected before any string operation runs.
`PyVal` models the dynamic values a caller can pass. -/

/-- Python values at the validator interfaces. -/
inductive PyVal where
  | vNone
  | vBool (b : Bool)
  | vInt (n : Int)
  | vStr (s : PyStr)
deriving DecidableEq

/-- Python truthiness of a `PyVal` (`bool(x)`). -/
def pyTruthy : PyVal → Bool
  | .vNone => false
  | .vBool b => b
  | .vInt n => n != 0
  | .vStr s => !s.isEmpty

/-- `isinstance(x, str)`. -/
def isStr : PyVal → Bool
  | .vStr _ => true
  | _ => false

/-- Python exceptions the embedded code can raise. -/
inductive PyErr where
  | typeError
deriving DecidableEq

/-- Python `len(x)`: defined for strings, a `TypeError` otherwise. -/
def pyLen : PyVal → Except PyErr Nat
  | .vStr s => .ok s.length
  | _ => .error .typeError

/-- `InputValidator.validate_username` (`validators.py:12-29`). -/
def validate_username : PyVal → Bool
  | .vStr s => if s.isEmpty then false else validate_username_str s
  | _ => false

/-- `InputValidator.validate_password` (`validators.py:31-44`). -/
def validate_password : PyVal → Bool
  | .vStr s => if s.isEmpty then false else validate_password_str s
  | _ => false

/-- `InputValidator.validate_campus_ssid` (`validators.py:46-64`). -/
def validate_campus_ssid : PyVal → Bool
  | .vStr s => if s.isEmpty then false else validate_campus_ssid_str s
  | _ => false

/-- `InputValidator.validate_email` (`validators.py:66-81`). -/
def validate_email : PyVal → Bool
  | .vStr s => if s.isEmpty then false else validate_email_str s
  | _ => false

/-- `InputValidator.validate_domain` (`validators.py:83-101`). -/
def validate_domain : PyVal → Bool
  | .vStr s => if s.isEmpty then false else validate_domain_str s
  | _ => false

/-- `InputValidator.validate_ip_address` (`validators.py:103-112`). -/
def validate_ip_address : PyVal → Bool
  | .vStr s => if s.isEmpty then false else validate_ip_address_str s
  | _ => false

/-- `InputValidator.validate_port` (`validators.py:114-123`). -/
def validate_port : PyVal → Bool
  | .vStr s => if s.isEmpty then false else validate_port_str s
  | _ => false

/-- `InputValidator.validate_url` (`validators.py:125-140`). -/
def validate_url : PyVal → Bool
  | .vStr s => if s.isEmpty then false else validate_url_str s
  | _ => false

/-- `InputValidator.validate_phone_number` (`validators.py:142-154`). -/
def validate_phone_number : PyVal → Bool
  | .vStr s => if s.isEmpty then false else validate_phone_number_str s
  | _ => false

/-- `InputValidator.validate_mac_address` (`validators.py:156-172`). -/
def validate_mac_address : PyVal → Bool
  | .vStr s => if s.isEmpty then false else validate_mac_address_str s
  | _ => false

/-- `InputValidator.validate_file_path` (`validators.py:283-298`). -/
def validate_file_path : PyVal → Bool
  | .vStr s => if s.isEmpty then false else validate_file_path_str s
  | _ => false

/-- `InputValidator.is_safe_string` (`validators.py:317-346`). -/
def is_safe_string (v : PyVal) (allowSpecial : Bool) : Bool :=
  match v with
  | .vStr s => if s.isEmpty then false else is_safe_string_str s allowSpecial
  | _ => false

/-- `InputValidator.sanitize_input` (`validators.py:174-187`): non-string
or empty input yields `""`. -/
def sanitize_input (v : PyVal) (maxLength : Nat) : PyStr :=
  match v with
  | .vStr s => sanitize_input_str s maxLength
  | _ => []

/-- Result dictionary of `validate_credentials_format`. -/
structure CredResult where
  username_valid : Bool
  password_valid : Bool
  username_error : PyStr
  password_error : PyStr
  overall_valid : Bool
deriving DecidableEq

/-- The username half of `validate_credentials_format`
(`validators.py:199-210`): on failure pick the error message, note that the
`elif len(username) < 2` branch calls `len` on the raw argument, which
raises `TypeError` for a truthy non-string value. -/
def usernamePart (u : PyVal) : Except PyErr (Bool × PyStr) :=
  if validate_username u then .ok (true, [])
  else if !pyTruthy u then .ok (false, str "Username cannot be empty")
  else
    match pyLen u with
    | .error e => .error e
    | .ok lu =>
      if lu < 2 then .ok (false, str "Username must be at least 2 characters")
      else if lu > 100 then .ok (false, str "Username cannot exceed 100 characters")
      else .ok (false, str "Username contains invalid characters")

/-- The password half of `validate_credentials_format`
(`validators.py:212-223`), with the same `len` hazard. -/
def passwordPart (p : PyVal) : Except PyErr (Bool × PyStr) :=
  if validate_password p then .ok (true, [])
  else if !pyTruthy p then .ok (false, str "Password cannot be empty")
  else
    match pyLen p with
    | .error e => .error e
    | .ok lp =>
      if lp < 4 then .ok (false, str "Password must be at least 4 characters")
      else if lp > 256 then .ok (false, str "Password cannot exceed 256 characters")
      else .ok (false, str "Password is invalid")

/-- `InputValidator.validate_credentials_format(username, password)`
(`validators.py:189-228`): per-field validity and error strings, overall
validity the conjunction; an uncaught `TypeError` from `len` propagates. -/
def validate_credentials_format (u p : PyVal) : Except PyErr CredResult :=
  match usernamePart u with
  | .error e => .error e
  | .ok (uv, ue) =>
    match passwordPart p with
    | .error e => .error e
    | .ok (pv, pe) =>
      .ok ⟨uv, pv, ue, pe, uv && pv⟩

/-! ### JSON values and Python dicts (`storage.py` records)

The vault serializes string-keyed dictionaries with `json.dumps` and reads
them back with `json.loads`.  For such values (string keys; null, boolean,
integer, string and nested-object leaves) the dump/load round trip is the
identity, so serialization is modelled as the identity on a `JVal` tree. -/

/-- JSON-serializable Python values stored by the vault. -/
inductive JVal where
  | jNull
  | jBool (b : Bool)
  | jNum (n : Int)
  | jStr (s : PyStr)
  | jObj (fields : List (PyStr × JVal))

/-- A Python dict with string keys, in insertion order, keys unique. -/
abbrev PyDict := List (PyStr × JVal)

/-- Python `d.get(k)` / `d[k]` lookup. -/
def dictGet (d : PyDict) (k : PyStr) : Option JVal :=
  match d with
  | [] => none
  | (k', v) :: rest => if k' = k then some v else dictGet rest k

/-- Python `d[k] = v`: overwrite in place when the key exists (insertion
order kept), otherwise append. -/
def dictSet (d : PyDict) (k : PyStr) (v : JVal) : PyDict :=
  match d with
  | [] => [(k, v)]
  | (k', v') :: rest =>
    if k' = k then (k', v) :: rest else (k', v') :: dictSet rest k v

/-- Python `d.update(other)`: set each key of `other` in order. -/
def dictUpdate (d : PyDict) (other : PyDict) : PyDict :=
  other.foldl (fun acc kv => dictSet acc kv.1 kv.2) d

/-- Python truthiness of a `JVal` (`bool(x)`). -/
def jTruthy : JVal → Bool
  | .jNull => false
  | .jBool b => b
  | .jNum n => n != 0
  | .jStr s => !s.isEmpty
  | .jObj fields => !fields.isEmpty

/-! ### The secure storage state (`storage.py`)

On-disk bytes are interpreted, not stored: `FileData.fernet key j` stands
for a well-formed Fernet token produced under `key` whose plaintext is the
JSON serialization of `j`; `fernetRaw key` for a token under `key` whose
plaintext is not valid JSON; `jsonText j` for plain text that parses as
`j`; `keyBytes k` for the raw key file; `corrupt` for bytes that are not a
valid token under any key and not valid JSON (e.g. a token with a flipped
byte, whose HMAC check fails).  `Fernet.decrypt` succeeds exactly on
tokens produced under the cipher's own key — the authenticated-encryption
contract of the `cryptography` library — and raises `InvalidToken`
otherwise, which the storage code catches. -/

inductive FileData where
  | fernet (key : Nat) (plain : JVal)
  | fernetRaw (key : Nat)
  | jsonText (plain : JVal)
  | keyBytes (key : Nat)
  | corrupt

/-- Result of `self.cipher.decrypt(data)` followed by `json.loads`:
`some j` when `data` is a token under `key` with JSON plaintext `j`. -/
def fernetDecryptJson (key : Nat) : FileData → Option JVal
  | .fernet k j => if k = key then some j else none
  | _ => none

/-- Whether file bytes are a well-formed Fernet token under `key` (that is,
`cipher.decrypt` would succeed, whatever the plaintext). -/
def isTokenUnder (key : Nat) : FileData → Bool
  | .fernet k _ => k = key
  | .fernetRaw k => k = key
  | _ => false

section AList

variable {β : Type}

/-- Association-list lookup (file name to content). -/
def alistGet (l : List (PyStr × β)) (k : PyStr) : Option β :=
  match l with
  | [] => none
  | (k', v) :: rest => if k' = k then some v else alistGet rest k

/-- Association-list overwrite-or-append (file write). -/
def alistSet (l : List (PyStr × β)) (k : PyStr) (v : β) : List (PyStr × β) :=
  match l with
  | [] => [(k, v)]
  | (k', v') :: rest =>
    if k' = k then (k', v) :: rest else (k', v') :: alistSet rest k v

/-- Association-list removal (`os.remove`); file names in a directory are
unique, so dropping every binding of `k` models deleting the file. -/
def alistRemove (l : List (PyStr × β)) (k : PyStr) : List (PyStr × β) :=
  l.filter (fun kv => decide (kv.1 ≠ k))

end AList

/-- File names used by `SecureStorage.__init__` (`storage.py:31-33`). -/
def keyFileName : PyStr := str "storage.key"

/-- `credentials.dat`. -/
def credFileName : PyStr := str "credentials.dat"

/-- `config.json`. -/
def configFileName : PyStr := str "config.json"

/-- `f'{key}.dat'`, the per-key secure-data file (`storage.py:292`). -/
def secureFileName (key : PyStr) : PyStr := key ++ str ".dat"

/-- State of one `SecureStorage` instance together with its storage
directory.  `cipher` is `self.cipher` (`Fernet(key)` holds the key bytes;
`none` models a failed `_init_encryption`); `files` maps file names inside
`storage_dir` to their bytes; `dirExists` tracks the directory itself. -/
structure Storage where
  cipher : Option Nat
  dirExists : Bool
  files : List (PyStr × FileData)

/-- Replace the file map of a storage state (a file write/delete changes
no other part of the state). -/
def withFiles (st : Storage) (f : List (PyStr × FileData)) : Storage :=
  { st with files := f }

/-- `SecureStorage.save_credentials(username, password, campus, remember,
additional_data)` (`storage.py:130-168`): build the record dict in literal
order, merge `additional_data`, serialize, encrypt under the cipher's key
and write `credentials.dat`.  `now` is `self._get_timestamp()`.  Returns
the source's boolean result and the new state. -/
def save_credentials (st : Storage) (username password campus : PyStr)
    (remember : Bool) (additionalData : Option PyDict) (now : PyStr) :
    Bool × Storage :=
  match st.cipher with
  | none => (false, st)
  | some key =>
    let data : PyDict :=
      [(str "username", .jStr username),
       (str "password", .jStr password),
       (str "campus", .jStr campus),
       (str "remember", .jBool remember),
       (str "version", .jStr (str "1.0")),
       (str "created_at", .jStr now)]
    let data := match additionalData with
      | some add => dictUpdate data add
      | none => data
    (true, { st with files := alistSet st.files credFileName (.fernet key (.jObj data)) })

/-- `SecureStorage.load_credentials()` (`storage.py:170-203`): absent file
or uninitialized cipher gives `None`; decrypt, parse, require a dict; when
`data.get('remember', False)` is not truthy force `data['password'] = ''`;
any decryption/parse failure is caught and gives `None`. -/
def load_credentials (st : Storage) : Option PyDict :=
  match alistGet st.files credFileName with
  | none => none
  | some fd =>
    match st.cipher with
    | none => none
    | some key =>
      match fernetDecryptJson key fd with
      | none => none
      | some j =>
        match j with
        | .jObj data =>
          if jTruthy ((dictGet data (str "remember")).getD (.jBool false)) then
            some data
          else
            some (dictSet data (str "password") (.jStr []))
        | _ => none

/-- The `if os.path.exists(f): os.remove(f)` try-block shared by
`clear_credentials`, `clear_config`, `delete_secure_data` and the key-file
block of `clear_all_data`: remove the named file if present; an
`os.remove` failure (the `fail` oracle) is caught and yields `False` with
the file still in place. -/
def removeFileStep (name : PyStr) (st : Storage) (fail : PyStr → Bool) :
    Bool × Storage :=
  match alistGet st.files name with
  | none => (true, st)
  | some _ =>
    if fail name then (false, st)
    else (true, { st with files := alistRemove st.files name })

/-- `SecureStorage.clear_credentials()` (`storage.py:205-216`). -/
def clear_credentials (st : Storage) (fail : PyStr → Bool) : Bool × Storage :=
  removeFileStep credFileName st fail

/-- `SecureStorage.save_config(config)` (`storage.py:218-237`): the
caller's dict is mutated in place with `config['version'] = '1.0'` and
`config['updated_at'] = <timestamp>`, then written as plain JSON.  The
first component is the argument dict as the caller observes it after the
call (Python aliasing). -/
def save_config (st : Storage) (config : PyDict) (now : PyStr) :
    PyDict × Bool × Storage :=
  let config := dictSet config (str "version") (.jStr (str "1.0"))
  let config := dictSet config (str "updated_at") (.jStr now)
  (config, true,
    { st with files := alistSet st.files configFileName (.jsonText (.jObj config)) })

/-- `SecureStorage.load_config()` (`storage.py:239-257`): absent file gives
`None`; parse the plain text, require a dict; parse failures are caught. -/
def load_config (st : Storage) : Option PyDict :=
  match alistGet st.files configFileName with
  | none => none
  | some fd =>
    match fd with
    | .jsonText (.jObj config) => some config
    | _ => none

/-- `SecureStorage.clear_config()` (`storage.py:259-270`). -/
def clear_config (st : Storage) (fail : PyStr → Bool) : Bool × Storage :=
  removeFileStep configFileName st fail

/-- `SecureStorage.save_secure_data(key, data)` (`storage.py:272-303`). -/
def save_secure_data (st : Storage) (key : PyStr) (data : PyDict) (now : PyStr) :
    Bool × Storage :=
  match st.cipher with
  | none => (false, st)
  | some cipherKey =>
    let dataToSave : PyDict :=
      [(str "key", .jStr key),
       (str "data", .jObj data),
       (str "version", .jStr (str "1.0")),
       (str "created_at", .jStr now)]
    (true, { st with
      files := alistSet st.files (secureFileName key) (.fernet cipherKey (.jObj dataToSave)) })

/-- `SecureStorage.load_secure_data(key)` (`storage.py:305-329`): decrypt
the per-key file and return `stored_data.get('data', {})`; a non-dict
payload raises `AttributeError` at `.get`, caught to `None`. -/
def load_secure_data (st : Storage) (key : PyStr) : Option JVal :=
  match alistGet st.files (secureFileName key) with
  | none => none
  | some fd =>
    match st.cipher with
    | none => none
    | some cipherKey =>
      match fernetDecryptJson cipherKey fd with
      | none => none
      | some (.jObj stored) => some ((dictGet stored (str "data")).getD (.jObj []))
      | some _ => none

/-- `SecureStorage.delete_secure_data(key)` (`storage.py:331-343`). -/
def delete_secure_data (st : Storage) (key : PyStr) (fail : PyStr → Bool) :
    Bool × Storage :=
  removeFileStep (secureFileName key) st fail

/-- The `for file in os.listdir(...)` loop of `clear_all_data`
(`storage.py:392-398`): remove every `.dat` file other than
`credentials.dat`; the loop body sits inside one `try`, so the first
failing `os.remove` raises out of the loop and the remaining names are
never attempted. -/
def clearDatLoop (fail : PyStr → Bool) : List PyStr → Storage → Bool × Storage
  | [], st => (true, st)
  | f :: rest, st =>
    if (str ".dat").isSuffixOf f && !(f == credFileName) then
      if fail f then (false, st)
      else clearDatLoop fail rest { st with files := alistRemove st.files f }
    else clearDatLoop fail rest st

/-- The key-file block of `clear_all_data` (`storage.py:383-389`): remove
`storage.key` if present, catching a failing `os.remove`. -/
def clearKeyStep (st : Storage) (fail : PyStr → Bool) : Bool × Storage :=
  removeFileStep keyFileName st fail

/-- `SecureStorage.clear_all_data()` (`storage.py:370-407`): clear
credentials, then configuration, then the key file, then every other
`.dat` file found by `os.listdir`; each of the four blocks runs regardless
of earlier failures and the result is `True` only when all succeeded. -/
def clear_all_data (st : Storage) (fail : PyStr → Bool) : Bool × Storage :=
  let r1 := clear_credentials st fail
  let r2 := clear_config r1.2 fail
  let r3 := clearKeyStep r2.2 fail
  let r4 := clearDatLoop fail (r3.2.files.map Prod.fst) r3.2
  (r1.1 && r2.1 && r3.1 && r4.1, r4.2)

/-! ### Machine seed (`storage.py:94-114`) -/

/-- Ambient process environment seen by `_get_machine_seed`: fixed per
process and machine, so the function is referentially stable. -/
structure OSEnv where
  system : PyStr
  machine : PyStr
  environ : List (PyStr × PyStr)

/-- Python `os.environ.get(k, default)`. -/
def envGet (e : OSEnv) (k : PyStr) (dflt : PyStr) : PyStr :=
  match alistGet e.environ k with
  | some v => v
  | none => dflt

/-- `SecureStorage._get_machine_seed()` (`storage.py:94-114`): join the
platform name, machine architecture, `USERNAME`-or-`USER`-or-`'unknown'`,
and the fixed application identifier.  None of the component reads can
raise, so the `except` fallback branch is dead code. -/
def get_machine_seed (e : OSEnv) : PyStr :=
  let seedComponents : List PyStr :=
    [e.system, e.machine,
     envGet e (str "USERNAME") (envGet e (str "USER") (str "unknown")),
     str "campus-wifi-connector-v1"]
  seedComponents.foldl (· ++ ·) []

/-- The machine seed as the specification words it: the concatenation of
the OS platform name, the machine architecture, the current OS user name
with fallback `"unknown"`, and the fixed application identifier. -/
def machineSeedSpec (e : OSEnv) : PyStr :=
  e.system ++ e.machine ++
    envGet e (str "USERNAME") (envGet e (str "USER") (str "unknown")) ++
    str "campus-wifi-connector-v1"

/-! ### Auth service (`services/auth_service.py`)

`time.time()` is passed in as `now` (whole seconds).  The remote
authentication server's behaviour is an explicit `ServerResponse`
parameter; `config.get('auth_server', {}).get('enabled', False)` and the
server URL are part of the state. -/

/-- Outcome of the HTTP POST in `_authenticate_with_server`. -/
inductive ServerResponse where
  | reqError
  | status (code : Nat) (success : Bool) (token : Option PyStr) (expiresIn : Nat)

/-- Mutable fields of `AuthService` (`auth_service.py:13-29`), plus the
relevant reads of `self.config`.  `max_attempts = 5` and
`lockout_duration = 300` are set in `__init__` and never reassigned, so
they are kept as definitions. -/
structure AuthState where
  authServerEnabled : Bool
  authServerUrl : Option PyStr
  authenticated : Bool
  authToken : Option PyStr
  authExpiry : Option Nat
  lastAuthAttempt : Nat
  failedAttempts : Nat

/-- `self.max_attempts` (`auth_service.py:28`). -/
def maxAttempts : Nat := 5

/-- `self.lockout_duration` (`auth_service.py:29`). -/
def lockoutDuration : Nat := 300

/-- `AuthService.is_locked_out()` (`auth_service.py:218-229`): locked while
the failure count has reached the threshold and the lockout window since
the last attempt has not elapsed; once it has elapsed the counters reset
as a side effect. -/
def is_locked_out (st : AuthState) (now : Nat) : Bool × AuthState :=
  if st.failedAttempts ≥ maxAttempts then
    if now - st.lastAuthAttempt < lockoutDuration then (true, st)
    else (false, { st with failedAttempts := 0, lastAuthAttempt := 0 })
  else (false, st)

/-- `AuthService._validate_username_format(username)`
(`auth_service.py:154-169`): length in [3,50], regex `^[a-zA-Z0-9._-]+$`,
and no leading or trailing dot. -/
def auth_validate_username_format (u : PyStr) : Bool :=
  if u.length < 3 || u.length > 50 then false
  else if !matchClassPlusDollar (fun c => isAsciiAlnum c || c = '.' || c = '_' || c = '-') u then false
  else if u.headD ' ' = '.' || u.getLastD ' ' = '.' then false
  else true

/-- `AuthService._validate_password_format(password)`
(`auth_service.py:171-183`): length in [6,128]. -/
def auth_validate_password_format (p : PyStr) : Bool :=
  if p.length < 6 then false
  else if p.length > 128 then false
  else true

/-- `AuthService._generate_local_token(username)` modelled symbolically:
the token is a base64 JSON blob of the username and timestamp; its
contents are never inspected by the properties below. -/
def generate_local_token (u : PyStr) (now : Nat) : PyStr :=
  u ++ str "@" ++ str (toString now)

/-- `AuthService._authenticate_local(username, password)`
(`auth_service.py:122-152`): format-validate, then mark authenticated,
issue a local token, set a one-hour expiry and reset the failure count;
on a format failure increment the failure count and stamp the attempt. -/
def authenticate_local (st : AuthState) (now : Nat) (u p : PyStr) :
    Bool × AuthState :=
  if !auth_validate_username_format u then
    (false, { st with failedAttempts := st.failedAttempts + 1, lastAuthAttempt := now })
  else if !auth_validate_password_format p then
    (false, { st with failedAttempts := st.failedAttempts + 1, lastAuthAttempt := now })
  else
    (true, { st with authenticated := true,
                     authToken := some (generate_local_token u now),
                     authExpiry := some (now + 3600),
                     failedAttempts := 0 })

/-- `AuthService._authenticate_with_server(username, password)`
(`auth_service.py:57-120`): no URL configured fails without touching the
counters; a 200 response with `success` authenticates and resets the
counter; any other response or a network error increments it. -/
def authenticate_with_server (st : AuthState) (now : Nat)
    (resp : ServerResponse) : Bool × AuthState :=
  match st.authServerUrl with
  | none => (false, st)
  | some _ =>
    match resp with
    | .reqError =>
      (false, { st with failedAttempts := st.failedAttempts + 1, lastAuthAttempt := now })
    | .status code success token expiresIn =>
      if code = 200 then
        if success then
          (true, { st with authenticated := true, authToken := token,
                           authExpiry := some (now + expiresIn),
                           failedAttempts := 0 })
        else
          (false, { st with failedAttempts := st.failedAttempts + 1, lastAuthAttempt := now })
      else
        (false, { st with failedAttempts := st.failedAttempts + 1, lastAuthAttempt := now })

/-- `AuthService.authenticate(username, password)`
(`auth_service.py:31-55`): reject outright while locked out, reject empty
credentials, then dispatch to the server or local path. -/
def authenticate (st : AuthState) (now : Nat) (u p : PyStr)
    (resp : ServerResponse) : Bool × AuthState :=
  let (locked, st1) := is_locked_out st now
  if locked then (false, st1)
  else if u.isEmpty || p.isEmpty then (false, st1)
  else if st1.authServerEnabled then authenticate_with_server st1 now resp
  else authenticate_local st1 now u p

/-! ### Formalized claim statements used by refutations -/

/-- The specification's description of `clean_ssid`'s output, as claimed:
trimmed of surrounding whitespace, free of ASCII control characters
(code points < 32 or = 127), and at most 32 code points long. -/
def ssidCleanedAsClaimed (s : PyStr) : Prop :=
  clean_ssid_str s = pyStrip (clean_ssid_str s) ∧
  (∀ c ∈ clean_ssid_str s, ¬(c.toNat < 32 ∨ c.toNat = 127)) ∧
  (clean_ssid_str s).length ≤ 32

/-- The claim that `clear_all_data` attempts every deletion even after a
failure: every managed file (a `.dat` file, the config file or the key
file) whose own removal would succeed is absent afterwards. -/
def clearAllDeletesAllAttemptable (st : Storage) (fail : PyStr → Bool) : Prop :=
  ∀ f, (alistGet st.files f).isSome = true →
    ((str ".dat").isSuffixOf f = true ∨ f = configFileName ∨ f = keyFileName) →
    fail f = false →
    alistGet (clear_all_data st fail).2.files f = none

section ListFacts

variable {α : Type} (p : α → Bool)

theorem dropWhile_idem (l : List α) :
    (l.dropWhile p).dropWhile p = l.dropWhile p := by
  induction l with
  | nil => rfl
  | cons a l ih =>
    by_cases h : p a
    · simp [List.dropWhile_cons, h, ih]
    · simp [List.dropWhile_cons, h]

theorem dropWhile_eq_self_of_prefix {l m : List α}
    (hp : m <+: l) (hl : l.dropWhile p = l) : m.dropWhile p = m := by
  cases m with
  | nil => rfl
  | cons a m' =>
    cases l with
    | nil =>
      obtain ⟨t, ht⟩ := hp
      simp at ht
    | cons b l' =>
      have hab : a = b := by
        obtain ⟨t, ht⟩ := hp
        simpa using congrArg (·.head?) ht
      subst hab
      by_cases h : p a
      · simp [List.dropWhile_cons, h] at hl
        have h1 := congrArg List.length hl
        have h2 : (List.dropWhile p l').length ≤ l'.length :=
          (List.dropWhile_sublist (l := l') p).length_le
        simp at h1
        omega
      · simp [List.dropWhile_cons, h]

end ListFacts

/-! ### Facts about `pyStrip` -/

theorem pyLStrip_idem (s : PyStr) : pyLStrip (pyLStrip s) = pyLStrip s :=
  dropWhile_idem _ s

theorem pyRStrip_idem (s : PyStr) : pyRStrip (pyRStrip s) = pyRStrip s := by
  unfold pyRStrip
  rw [List.reverse_reverse, dropWhile_idem]

theorem pyLStrip_suffix (s : PyStr) : pyLStrip s <:+ s :=
  List.dropWhile_suffix pyIsSpaceChar

theorem pyRStrip_front (s : PyStr) : pyRStrip s <+: s :=
  List.reverse_suffix.mp
    (by simpa [pyRStrip] using List.dropWhile_suffix (l := s.reverse) pyIsSpaceChar)

theorem pyStrip_sublist (s : PyStr) : List.Sublist (pyStrip s) s :=
  ((pyRStrip_front (pyLStrip s)).sublist).trans (pyLStrip_suffix s).sublist

theorem pyLStrip_pyRStrip_pyLStrip (s : PyStr) :
    pyLStrip (pyRStrip (pyLStrip s)) = pyRStrip (pyLStrip s) :=
  dropWhile_eq_self_of_prefix pyIsSpaceChar (pyRStrip_front (pyLStrip s))
    (pyLStrip_idem s)

theorem pyStrip_idem (s : PyStr) : pyStrip (pyStrip s) = pyStrip s := by
  unfold pyStrip
  rw [pyLStrip_pyRStrip_pyLStrip, pyRStrip_idem]

theorem dropWhile_replicate_of_neg {α : Type} (p : α → Bool) (a : α)
    (h : p a = false) (n : Nat) :
    (List.replicate n a).dropWhile p = List.replicate n a := by
  cases n with
  | zero => rfl
  | succ k => rw [List.replicate_succ]; simp [List.dropWhile_cons, h]

theorem pyStrip_replicate_a (n : Nat) :
    pyStrip (List.replicate n 'a') = List.replicate n 'a' := by
  unfold pyStrip pyLStrip pyRStrip
  rw [dropWhile_replicate_of_neg _ _ (by decide), List.reverse_replicate,
      dropWhile_replicate_of_neg _ _ (by decide), List.reverse_replicate]

/-! ### Facts about `sanitize_input` (claim C4) -/

theorem sanitize_chars {s : PyStr} {m : Nat} :
    ∀ c ∈ sanitize_input_str s m, sanitizeKeep c = true := by
  intro c hc
  unfold sanitize_input_str at hc
  split at hc
  · simp at hc
  · have h1 : c ∈ truncAt m (s.filter sanitizeKeep) := (pyStrip_sublist _).subset hc
    have h2 : c ∈ s.filter sanitizeKeep := by
      unfold truncAt at h1
      split at h1
      · exact (List.take_sublist _ _).subset h1
      · exact h1
    exact (List.mem_filter.mp h2).2

theorem sanitize_length_le (s : PyStr) (m : Nat) :
    (sanitize_input_str s m).length ≤ m := by
  unfold sanitize_input_str
  split
  · simp
  · have h1 : (pyStrip (truncAt m (s.filter sanitizeKeep))).length ≤
        (truncAt m (s.filter sanitizeKeep)).length :=
      (pyStrip_sublist _).length_le
    have h2 : (truncAt m (s.filter sanitizeKeep)).length ≤ m := by
      unfold truncAt
      split
      next h => simp [List.length_take]
      next h => omega
    omega

theorem sanitize_idem (s : PyStr) (m : Nat) :
    sanitize_input_str (sanitize_input_str s m) m = sanitize_input_str s m := by
  set r := sanitize_input_str s m with hr
  unfold sanitize_input_str
  split
  · next h => exact h.symm
  · next h =>
    have hfilter : r.filter sanitizeKeep = r :=
      List.filter_eq_self.mpr (fun c hc => sanitize_chars c hc)
    rw [hfilter]
    have hlen : r.length ≤ m := sanitize_length_le s m
    have htr : truncAt m r = r := by
      unfold truncAt
      rw [if_neg (by omega)]
    rw [htr, hr]
    unfold sanitize_input_str
    split
    · rfl
    · exact pyStrip_idem _

theorem sanitize_replicate_a :
    sanitize_input_str (List.replicate 1500 'a') 1000 = List.replicate 1000 'a' := by
  unfold sanitize_input_str
  rw [if_neg (by rw [List.replicate_eq_nil_iff]; norm_num)]
  have hf : (List.replicate 1500 'a').filter sanitizeKeep = List.replicate 1500 'a' := by
    rw [List.filter_eq_self]
    intro a ha
    rw [List.eq_of_mem_replicate ha]
    decide
  rw [hf]
  have ht : truncAt 1000 (List.replicate 1500 'a') = List.replicate 1000 'a' := by
    unfold truncAt
    rw [if_pos (by rw [List.length_replicate]; norm_num), List.take_replicate]
    norm_num
  rw [ht, pyStrip_replicate_a]

/-- C4: `sanitize_input` is idempotent — for every string and every
`max_length`, sanitizing twice equals sanitizing once — and it strips
control characters, truncates to `max_length` code points, then trims, so
1500 `'a'` characters yield exactly 1000 `'a'` characters. -/
theorem sanitize_input_idempotent :
    (∀ (s : PyStr) (m : Nat),
        sanitize_input_str (sanitize_input_str s m) m = sanitize_input_str s m) ∧
    sanitize_input_str (List.replicate 1500 'a') 1000 = List.replicate 1000 'a' :=
  ⟨fun s m => sanitize_idem s m, sanitize_replicate_a⟩

/-! ### Facts about `clean_ssid` (claim C9) -/

/-- C9 (counterexample): `clean_ssid` does not deliver what the claim
states.  On `"a \x01"` the control character is removed only after
trimming, exposing a trailing space, so the result `"a "` is not trimmed;
and `DEL` (code point 127) passes the `ord(char) >= 32` filter, so the
result of cleaning `"\x7f"` still contains an ASCII control character. -/
theorem clean_ssid_claim_counterexample :
    ¬ ssidCleanedAsClaimed (str "a \x01") ∧ ¬ ssidCleanedAsClaimed (str "\x7F") := by
  unfold ssidCleanedAsClaimed
  constructor <;> decide

/-- C9 (amended): `clean_ssid` returns at most 32 code points and removes
every code point below 32; it trims before filtering, so `DEL` (127) can
remain and whitespace exposed by the control-character removal can remain
at the ends. -/
theorem clean_ssid_bounds :
    ∀ s : PyStr, (clean_ssid_str s).length ≤ 32 ∧
      ∀ c ∈ clean_ssid_str s, 32 ≤ c.toNat := by
  intro s
  constructor
  · unfold clean_ssid_str
    split
    · simp
    · unfold truncAt
      split
      next h => simp [List.length_take]
      next h => omega
  · intro c hc
    unfold clean_ssid_str at hc
    split at hc
    · simp at hc
    · have h1 : c ∈ (pyStrip s).filter (fun c => 32 ≤ c.toNat) := by
        unfold truncAt at hc
        split at hc
        · exact (List.take_sublist _ _).subset hc
        · exact hc
      simpa using (List.mem_filter.mp h1).2

/-! ### Machine seed (claim C8) -/

/-- C8: `_get_machine_seed` is a pure function of the ambient process
environment — so within one process and machine every call returns the
same string — and that string is exactly the concatenation of the OS
platform name, the machine architecture, the current OS user name
(`USERNAME`, else `USER`, else the fallback `"unknown"`) and the fixed
application identifier constant. -/
theorem get_machine_seed_spec :
    ∀ e : OSEnv, get_machine_seed e = machineSeedSpec e := by
  intro e
  unfold get_machine_seed machineSeedSpec
  simp [List.append_assoc]

/-! ### Python dict update facts -/

theorem dictGet_dictSet_self (d : PyDict) (k : PyStr) (v : JVal) :
    dictGet (dictSet d k v) k = some v := by
  induction d with
  | nil => simp [dictSet, dictGet]
  | cons kv rest ih =>
    obtain ⟨a, b⟩ := kv
    by_cases h : a = k
    · simp [dictSet, dictGet, h]
    · simp [dictSet, dictGet, h, ih]

theorem dictGet_dictSet_ne (d : PyDict) (k k' : PyStr) (v : JVal)
    (h : k ≠ k') : dictGet (dictSet d k v) k' = dictGet d k' := by
  induction d with
  | nil => simp [dictSet, dictGet, h]
  | cons kv rest ih =>
    obtain ⟨a, b⟩ := kv
    by_cases ha : a = k
    · subst ha
      have : a ≠ k' := h
      simp [dictSet, dictGet, this]
    · simp only [dictSet, if_neg ha, dictGet]
      split
      · rfl
      · exact ih

/-! ### `save_config` mutation (claim C10) -/

/-- C10: `save_config` mutates the caller-passed dict in place: after the
call the argument object carries `version = "1.0"` and
`updated_at = <timestamp>`, overwriting any caller-supplied values under
those two keys, while every other entry is unchanged.  The first component
of `save_config` is the argument dict as the caller observes it. -/
theorem save_config_mutates_argument :
    ∀ (st : Storage) (config : PyDict) (now : PyStr),
      dictGet (save_config st config now).1 (str "version") =
        some (.jStr (str "1.0")) ∧
      dictGet (save_config st config now).1 (str "updated_at") =
        some (.jStr now) ∧
      ∀ k, k ≠ str "version" → k ≠ str "updated_at" →
        dictGet (save_config st config now).1 k = dictGet config k := by
  intro st config now
  refine ⟨?_, ?_, ?_⟩
  · show dictGet (dictSet (dictSet config (str "version") _) (str "updated_at") _)
      (str "version") = _
    rw [dictGet_dictSet_ne _ _ _ _ (by decide), dictGet_dictSet_self]
  · exact dictGet_dictSet_self _ _ _
  · intro k hk1 hk2
    show dictGet (dictSet (dictSet config (str "version") _) (str "updated_at") _) k = _
    rw [dictGet_dictSet_ne _ _ _ _ (fun h => hk2 h.symm),
        dictGet_dictSet_ne _ _ _ _ (fun h => hk1 h.symm)]

/-- C10 (witness): a concrete configuration dict keeps its other entries
and gains the two injected keys. -/
theorem save_config_mutates_argument_witness :
    dictGet (save_config ⟨some 1, true, []⟩
        [(str "theme", .jStr (str "dark"))] (str "t0")).1 (str "theme") =
      some (.jStr (str "dark")) ∧
    dictGet (save_config ⟨some 1, true, []⟩
        [(str "theme", .jStr (str "dark"))] (str "t0")).1 (str "version") =
      some (.jStr (str "1.0")) := by
  obtain ⟨h1, h2, h3⟩ := save_config_mutates_argument ⟨some 1, true, []⟩
    [(str "theme", .jStr (str "dark"))] (str "t0")
  exact ⟨h3 (str "theme") (by decide) (by decide) ▸ rfl, h1⟩

/-! ### Validators on null and non-string input (claim C5) -/

theorem validate_username_of_falsy {u : PyVal} (h : pyTruthy u = false) :
    validate_username u = false := by
  cases u with
  | vStr s =>
    have hs : s.isEmpty = true := by simpa [pyTruthy] using h
    simp [validate_username, hs]
  | vNone => rfl
  | vBool b => simp [pyTruthy] at h; simp [validate_username]
  | vInt n => rfl

theorem validate_password_of_falsy {p : PyVal} (h : pyTruthy p = false) :
    validate_password p = false := by
  cases p with
  | vStr s =>
    have hs : s.isEmpty = true := by simpa [pyTruthy] using h
    simp [validate_password, hs]
  | vNone => rfl
  | vBool b => simp [pyTruthy] at h; simp [validate_password]
  | vInt n => rfl

theorem usernamePart_falsy {u : PyVal} (h : pyTruthy u = false) :
    usernamePart u = .ok (false, str "Username cannot be empty") := by
  unfold usernamePart
  rw [if_neg (by simp [validate_username_of_falsy h]), if_pos (by simp [h])]

theorem passwordPart_falsy {p : PyVal} (h : pyTruthy p = false) :
    passwordPart p = .ok (false, str "Password cannot be empty") := by
  unfold passwordPart
  rw [if_neg (by simp [validate_password_of_falsy h]), if_pos (by simp [h])]

theorem usernamePart_str_ok (s : PyStr) :
    ∃ x, usernamePart (.vStr s) = .ok x := by
  unfold usernamePart
  split
  · exact ⟨_, rfl⟩
  · split
    · exact ⟨_, rfl⟩
    · simp only [pyLen]
      split
      · exact ⟨_, rfl⟩
      · split
        · exact ⟨_, rfl⟩
        · exact ⟨_, rfl⟩

theorem passwordPart_str_ok (s : PyStr) :
    ∃ x, passwordPart (.vStr s) = .ok x := by
  unfold passwordPart
  split
  · exact ⟨_, rfl⟩
  · split
    · exact ⟨_, rfl⟩
    · simp only [pyLen]
      split
      · exact ⟨_, rfl⟩
      · split
        · exact ⟨_, rfl⟩
        · exact ⟨_, rfl⟩

/-- C5 (counterexample): the aggregate validator is not exception-free on
non-string input: a truthy non-string username reaches
`len(username)` and raises `TypeError`
(`validate_credentials_format(123, "validpass")`). -/
theorem validate_credentials_format_raises :
    validate_credentials_format (.vInt 123) (.vStr (str "validpass")) =
      .error .typeError ∧
    ¬ (∀ u p : PyVal, ∃ r, validate_credentials_format u p = .ok r) := by
  refine ⟨rfl, fun h => ?_⟩
  obtain ⟨r, hr⟩ := h (.vInt 123) (.vStr (str "validpass"))
  rw [show validate_credentials_format (.vInt 123) (.vStr (str "validpass")) =
      .error .typeError from rfl] at hr
  exact Except.noConfusion hr

/-- C5 (amended): every individual validator treats null and non-string
input as invalid (returns `false`) and never raises; the aggregate
`validate_credentials_format` returns a structured result — the non-string
side marked invalid, overall invalid — without raising, whenever each
non-string argument is falsy (`None`, `False`, `0`, `""`), but it raises
`TypeError` on truthy non-string arguments (see the counterexample). -/
theorem validators_nonstring_invalid :
    (∀ v : PyVal, isStr v = false →
      validate_username v = false ∧ validate_password v = false ∧
      validate_campus_ssid v = false ∧ validate_email v = false ∧
      validate_domain v = false ∧ validate_ip_address v = false ∧
      validate_port v = false ∧ validate_url v = false ∧
      validate_phone_number v = false ∧ validate_mac_address v = false ∧
      validate_file_path v = false ∧ ∀ b, is_safe_string v b = false) ∧
    (∀ u p : PyVal,
      (pyTruthy u = false ∨ isStr u = true) →
      (pyTruthy p = false ∨ isStr p = true) →
      ∃ r, validate_credentials_format u p = .ok r ∧
        (isStr u = false → r.username_valid = false ∧ r.overall_valid = false) ∧
        (isStr p = false → r.password_valid = false ∧ r.overall_valid = false)) := by
  constructor
  · intro v h
    cases v with
    | vStr s => simp [isStr] at h
    | vNone => exact ⟨rfl, rfl, rfl, rfl, rfl, rfl, rfl, rfl, rfl, rfl, rfl, fun _ => rfl⟩
    | vBool b => exact ⟨rfl, rfl, rfl, rfl, rfl, rfl, rfl, rfl, rfl, rfl, rfl, fun _ => rfl⟩
    | vInt n => exact ⟨rfl, rfl, rfl, rfl, rfl, rfl, rfl, rfl, rfl, rfl, rfl, fun _ => rfl⟩
  · intro u p hu hp
    have hu' : ∃ x, usernamePart u = .ok x ∧ (isStr u = false → x.1 = false) := by
      rcases hu with h | h
      · exact ⟨_, usernamePart_falsy h, fun _ => rfl⟩
      · cases u with
        | vStr s =>
          obtain ⟨x, hx⟩ := usernamePart_str_ok s
          exact ⟨x, hx, fun hc => by simp [isStr] at hc⟩
        | vNone => simp [isStr] at h
        | vBool b => simp [isStr] at h
        | vInt n => simp [isStr] at h
    have hp' : ∃ x, passwordPart p = .ok x ∧ (isStr p = false → x.1 = false) := by
      rcases hp with h | h
      · exact ⟨_, passwordPart_falsy h, fun _ => rfl⟩
      · cases p with
        | vStr s =>
          obtain ⟨x, hx⟩ := passwordPart_str_ok s
          exact ⟨x, hx, fun hc => by simp [isStr] at hc⟩
        | vNone => simp [isStr] at h
        | vBool b => simp [isStr] at h
        | vInt n => simp [isStr] at h
    obtain ⟨⟨uv, ue⟩, hxu, huv⟩ := hu'
    obtain ⟨⟨pv, pe⟩, hxp, hpv⟩ := hp'
    refine ⟨⟨uv, pv, ue, pe, uv && pv⟩, ?_, ?_, ?_⟩
    · unfold validate_credentials_format
      rw [hxu, hxp]
    · intro h
      have : uv = false := huv h
      subst this
      exact ⟨rfl, rfl⟩
    · intro h
      have : pv = false := hpv h
      subst this
      exact ⟨rfl, by simp⟩

/-- C5 (witness): the amended statement at `None` and a valid password
string. -/
theorem validators_nonstring_invalid_witness :
    validate_username PyVal.vNone = false ∧
    (∃ r, validate_credentials_format PyVal.vNone (.vStr (str "validpass")) = .ok r ∧
      r.username_valid = false ∧ r.overall_valid = false) := by
  refine ⟨(validators_nonstring_invalid.1 PyVal.vNone rfl).1, ?_⟩
  obtain ⟨r, hr, hu, hp⟩ := validators_nonstring_invalid.2 PyVal.vNone
    (.vStr (str "validpass")) (Or.inl rfl) (Or.inr rfl)
  exact ⟨r, hr, hu rfl⟩


theorem alistGet_alistSet_self {β : Type} (l : List (PyStr × β)) (k : PyStr)
    (v : β) : alistGet (alistSet l k v) k = some v := by
  induction l with
  | nil => simp [alistSet, alistGet]
  | cons kv rest ih =>
    obtain ⟨a, b⟩ := kv
    by_cases h : a = k
    · simp [alistSet, alistGet, h]
    · simp [alistSet, alistGet, h, ih]

theorem alistGet_alistSet_ne {β : Type} (l : List (PyStr × β)) (k k' : PyStr)
    (v : β) (h : k ≠ k') : alistGet (alistSet l k v) k' = alistGet l k' := by
  induction l with
  | nil => simp [alistSet, alistGet, h]
  | cons kv rest ih =>
    obtain ⟨a, b⟩ := kv
    by_cases ha : a = k
    · subst ha
      have : a ≠ k' := h
      simp [alistSet, alistGet, this]
    · simp only [alistSet, if_neg ha, alistGet]
      split
      · rfl
      · exact ih

theorem alistGet_alistRemove_self {β : Type} (l : List (PyStr × β)) (k : PyStr) :
    alistGet (alistRemove l k) k = none := by
  induction l with
  | nil => rfl
  | cons kv rest ih =>
    obtain ⟨a, b⟩ := kv
    simp only [alistRemove, List.filter_cons] at ih ⊢
    by_cases h : a = k
    · rw [if_neg (by simp [h])]
      exact ih
    · rw [if_pos (by simp [h])]
      simp only [alistGet, if_neg h]
      exact ih

theorem alistGet_alistRemove_ne {β : Type} (l : List (PyStr × β)) (k k' : PyStr)
    (h : k' ≠ k) : alistGet (alistRemove l k) k' = alistGet l k' := by
  induction l with
  | nil => rfl
  | cons kv rest ih =>
    obtain ⟨a, b⟩ := kv
    simp only [alistRemove, List.filter_cons] at ih ⊢
    by_cases ha : a = k
    · rw [if_neg (by simp [ha])]
      rw [ih]
      have hak : ¬ a = k' := fun he => h (by rw [← he, ha])
      simp [alistGet, hak]
    · rw [if_pos (by simp [ha])]
      by_cases hk : a = k'
      · simp [alistGet, hk]
      · simp only [alistGet, if_neg hk]
        exact ih

/-! ### Credential round trip and redaction (claims C1, C2, C3) -/

theorem save_credentials_eq (st : Storage) (key : Nat)
    (u p c : PyStr) (remember : Bool) (now : PyStr)
    (hc : st.cipher = some key) :
    save_credentials st u p c remember none now =
      (true, withFiles st (alistSet st.files credFileName
        (.fernet key (.jObj
          [(str "username", .jStr u), (str "password", .jStr p),
           (str "campus", .jStr c), (str "remember", .jBool remember),
           (str "version", .jStr (str "1.0")),
           (str "created_at", .jStr now)])))) := by
  unfold save_credentials withFiles
  rw [hc]

theorem load_credentials_of_file (st : Storage) (key : Nat) (data : PyDict)
    (hc : st.cipher = some key)
    (hf : alistGet st.files credFileName = some (.fernet key (.jObj data))) :
    load_credentials st =
      (if jTruthy ((dictGet data (str "remember")).getD (.jBool false)) then
        some data
      else some (dictSet data (str "password") (.jStr []))) := by
  unfold load_credentials
  rw [hf, hc]
  simp [fernetDecryptJson]

theorem load_after_save (st : Storage) (key : Nat) (u p c : PyStr)
    (remember : Bool) (now : PyStr) (hc : st.cipher = some key) :
    load_credentials (save_credentials st u p c remember none now).2 =
      (if remember then
        some [(str "username", .jStr u), (str "password", .jStr p),
          (str "campus", .jStr c), (str "remember", .jBool remember),
          (str "version", .jStr (str "1.0")), (str "created_at", .jStr now)]
      else
        some (dictSet
          [(str "username", .jStr u), (str "password", .jStr p),
           (str "campus", .jStr c), (str "remember", .jBool remember),
           (str "version", .jStr (str "1.0")), (str "created_at", .jStr now)]
          (str "password") (.jStr []))) := by
  rw [save_credentials_eq st key u p c remember now hc]
  rw [load_credentials_of_file
    (withFiles st (alistSet st.files credFileName
      (.fernet key (.jObj
        [(str "username", .jStr u), (str "password", .jStr p),
         (str "campus", .jStr c), (str "remember", .jBool remember),
         (str "version", .jStr (str "1.0")), (str "created_at", .jStr now)]))))
    key _ hc (alistGet_alistSet_self _ _ _)]
  have hrem : dictGet
      [(str "username", JVal.jStr u), (str "password", .jStr p),
       (str "campus", .jStr c), (str "remember", .jBool remember),
       (str "version", .jStr (str "1.0")), (str "created_at", .jStr now)]
      (str "remember") = some (.jBool remember) := by
    simp +decide [dictGet]
  rw [hrem]
  cases remember <;> simp [jTruthy]

/-- C1: for every valid username, password and campus, saving with
`remember = true` succeeds and `load_credentials` returns a record whose
`username`, `password` and `campus` fields are exactly the saved values. -/
theorem save_load_credentials_roundtrip :
    ∀ (st : Storage) (key : Nat) (u p c now : PyStr),
      st.cipher = some key →
      validate_username (.vStr u) = true →
      validate_password (.vStr p) = true →
      validate_campus_ssid (.vStr c) = true →
      (save_credentials st u p c true none now).1 = true ∧
      ∃ d, load_credentials (save_credentials st u p c true none now).2 = some d ∧
        dictGet d (str "username") = some (.jStr u) ∧
        dictGet d (str "password") = some (.jStr p) ∧
        dictGet d (str "campus") = some (.jStr c) := by
  intro st key u p c now hc _ _ _
  constructor
  · rw [save_credentials_eq st key u p c true now hc]
  · have hload := load_after_save st key u p c true now hc
    rw [if_pos rfl] at hload
    exact ⟨_, hload, by simp +decide [dictGet], by simp +decide [dictGet],
      by simp +decide [dictGet]⟩

/-- C1 (witness): a concrete valid round trip. -/
theorem save_load_credentials_roundtrip_witness :
    ∃ d, load_credentials (save_credentials ⟨some 1, true, []⟩
        (str "user1") (str "pass1234") (str "eduroam") true none (str "t0")).2 =
          some d ∧
      dictGet d (str "username") = some (.jStr (str "user1")) ∧
      dictGet d (str "password") = some (.jStr (str "pass1234")) ∧
      dictGet d (str "campus") = some (.jStr (str "eduroam")) := by
  obtain ⟨-, h⟩ := save_load_credentials_roundtrip ⟨some 1, true, []⟩ 1
    (str "user1") (str "pass1234") (str "eduroam") (str "t0")
    rfl (by decide) (by decide) (by decide)
  exact h

/-- C2: redaction happens on read, not on write.  First: any stored record
whose `remember` field is `false` is returned by `load_credentials` with
the `password` field forced to the empty string, whatever password was
stored.  Second: after `save_credentials(..., remember=false)` the
ciphertext on disk still contains the real password in its plaintext,
while `load_credentials` returns the record with `password = ""` and the
other fields intact. -/
theorem load_credentials_redacts :
    (∀ (st : Storage) (key : Nat) (data : PyDict),
      st.cipher = some key →
      alistGet st.files credFileName = some (.fernet key (.jObj data)) →
      dictGet data (str "remember") = some (.jBool false) →
      load_credentials st = some (dictSet data (str "password") (.jStr []))) ∧
    (∀ (st : Storage) (key : Nat) (u p c now : PyStr),
      st.cipher = some key →
      alistGet (save_credentials st u p c false none now).2.files credFileName =
        some (.fernet key (.jObj
          [(str "username", .jStr u), (str "password", .jStr p),
           (str "campus", .jStr c), (str "remember", .jBool false),
           (str "version", .jStr (str "1.0")),
           (str "created_at", .jStr now)])) ∧
      ∃ d, load_credentials (save_credentials st u p c false none now).2 = some d ∧
        dictGet d (str "password") = some (.jStr []) ∧
        dictGet d (str "username") = some (.jStr u) ∧
        dictGet d (str "campus") = some (.jStr c)) := by
  constructor
  · intro st key data hc hf hrem
    rw [load_credentials_of_file st key data hc hf,
      if_neg (by rw [hrem]; decide)]
  · intro st key u p c now hc
    constructor
    · rw [save_credentials_eq st key u p c false now hc]
      exact alistGet_alistSet_self _ _ _
    · have hload := load_after_save st key u p c false now hc
      rw [if_neg (by decide)] at hload
      refine ⟨_, hload, dictGet_dictSet_self _ _ _, ?_, ?_⟩
      · rw [dictGet_dictSet_ne _ _ _ _ (by decide)]
        simp +decide [dictGet]
      · rw [dictGet_dictSet_ne _ _ _ _ (by decide)]
        simp +decide [dictGet]

/-- C2 (witness): a concrete save with `remember = false`: the on-disk
plaintext still carries the real password, the loaded record does not. -/
theorem load_credentials_redacts_witness :
    ∃ d, load_credentials (save_credentials ⟨some 1, true, []⟩
        (str "user1") (str "secretpw") (str "eduroam") false none (str "t0")).2 =
          some d ∧
      dictGet d (str "password") = some (.jStr []) ∧
      dictGet d (str "username") = some (.jStr (str "user1")) := by
  obtain ⟨-, d, hd, hp, hu, -⟩ := load_credentials_redacts.2 ⟨some 1, true, []⟩ 1
    (str "user1") (str "secretpw") (str "eduroam") (str "t0") rfl
  exact ⟨d, hd, hp, hu⟩

/-- C3: fail-closed decryption: whenever the credentials file holds bytes
that are not a well-formed Fernet token under the vault's key — wrong key,
tampered or corrupt bytes, or plain text — `load_credentials` returns
`None`: the `InvalidToken` failure is caught, and no partial plaintext is
produced. -/
theorem load_credentials_fail_closed :
    ∀ (st : Storage) (key : Nat) (fd : FileData),
      st.cipher = some key →
      alistGet st.files credFileName = some fd →
      isTokenUnder key fd = false →
      load_credentials st = none := by
  intro st key fd hc hf htok
  unfold load_credentials
  rw [hf, hc]
  cases fd with
  | fernet k j =>
    simp only [isTokenUnder, decide_eq_false_iff_not] at htok
    simp [fernetDecryptJson, htok]
  | fernetRaw k => simp [fernetDecryptJson]
  | jsonText j => simp [fernetDecryptJson]
  | keyBytes k => simp [fernetDecryptJson]
  | corrupt => simp [fernetDecryptJson]

/-- C3 (witness): a corrupt credentials file (e.g. a token with one flipped
byte) loads as `None`, and so does a token under a different key. -/
theorem load_credentials_fail_closed_witness :
    load_credentials ⟨some 5, true, [(credFileName, .corrupt)]⟩ = none ∧
    load_credentials ⟨some 5, true,
      [(credFileName, .fernet 6 (.jObj []))]⟩ = none := by
  constructor
  · exact load_credentials_fail_closed _ 5 .corrupt rfl rfl rfl
  · exact load_credentials_fail_closed _ 5 (.fernet 6 (.jObj [])) rfl rfl rfl

/-! ### Authentication lockout (claim C6) -/

/-- C6: while the service is locked out — the failure count has reached
the threshold 5 and fewer than 300 seconds have passed since the last
attempt — `authenticate` returns `false` whatever the credentials or
server response; once the lockout duration has elapsed, a format-valid
local attempt (auth server disabled) succeeds and resets the failure
counter to 0. -/
theorem lockout_blocks_then_resets :
    ∀ (st : AuthState) (u p u' p' : PyStr) (now now' : Nat)
      (resp resp' : ServerResponse),
      st.failedAttempts ≥ 5 →
      st.lastAuthAttempt ≤ now →
      now - st.lastAuthAttempt < 300 →
      300 ≤ now' - st.lastAuthAttempt →
      st.authServerEnabled = false →
      auth_validate_username_format u' = true →
      auth_validate_password_format p' = true →
      (authenticate st now u p resp).1 = false ∧
      (authenticate st now' u' p' resp').1 = true ∧
      (authenticate st now' u' p' resp').2.failedAttempts = 0 := by
  intro st u p u' p' now now' resp resp' hfail hle hlt helapsed hsrv hu hp
  have h1 : is_locked_out st now = (true, st) := by
    unfold is_locked_out
    rw [if_pos (by unfold maxAttempts; omega),
        if_pos (by unfold lockoutDuration; omega)]
  have h2 : is_locked_out st now' =
      (false, { st with failedAttempts := 0, lastAuthAttempt := 0 }) := by
    unfold is_locked_out
    rw [if_pos (by unfold maxAttempts; omega),
        if_neg (by unfold lockoutDuration; omega)]
  have hu0 : u'.isEmpty = false := by
    cases u' with
    | nil => simp [auth_validate_username_format] at hu
    | cons a l => rfl
  have hp0 : p'.isEmpty = false := by
    cases p' with
    | nil => simp [auth_validate_password_format] at hp
    | cons a l => rfl
  refine ⟨?_, ?_⟩
  · unfold authenticate
    rw [h1]
    rfl
  · unfold authenticate
    rw [h2]
    simp only [hu0, hp0]
    unfold authenticate_local
    simp [hsrv, hu, hp]

/-- C6 (witness): a concrete lockout scenario: five failures at time 1000,
a valid attempt at 1100 is still rejected, a valid attempt at 1400
succeeds and resets the counter. -/
theorem lockout_blocks_then_resets_witness :
    (authenticate ⟨false, none, false, none, none, 1000, 5⟩ 1100
      (str "user") (str "password") .reqError).1 = false ∧
    (authenticate ⟨false, none, false, none, none, 1000, 5⟩ 1400
      (str "user") (str "password") .reqError).1 = true ∧
    (authenticate ⟨false, none, false, none, none, 1000, 5⟩ 1400
      (str "user") (str "password") .reqError).2.failedAttempts = 0 :=
  lockout_blocks_then_resets ⟨false, none, false, none, none, 1000, 5⟩
    (str "user") (str "password") (str "user") (str "password") 1100 1400
    .reqError .reqError (by decide) (by decide) (by decide) (by decide) rfl
    (by decide) (by decide)

/-! ### `clear_all_data` (claim C7) -/

theorem removeFileStep_cases (n : PyStr) (st : Storage) (fail : PyStr → Bool)
    (b : Bool) (st' : Storage) (h : removeFileStep n st fail = (b, st')) :
    st'.dirExists = st.dirExists ∧ st'.cipher = st.cipher ∧
    (b = true → alistGet st'.files n = none) ∧
    (∀ f, alistGet st.files f = none → alistGet st'.files f = none) ∧
    (∀ f, f ≠ n → alistGet st'.files f = alistGet st.files f) ∧
    (fail n = false → b = true) ∧
    (b = true → alistGet st.files n = none ∨ fail n = false) := by
  unfold removeFileStep at h
  split at h
  · next hn =>
    injection h with hb hs
    subst hb; subst hs
    exact ⟨rfl, rfl, fun _ => hn, fun f hf => hf, fun f _ => rfl, fun _ => rfl,
      fun _ => Or.inl hn⟩
  · next hsome =>
    split at h
    · next hfail =>
      injection h with hb hs
      subst hb; subst hs
      refine ⟨rfl, rfl, fun hc => absurd hc (by simp), fun f hf => hf,
        fun f _ => rfl, fun hc => ?_, fun hc => absurd hc (by simp)⟩
      rw [hc] at hfail
      exact hfail
    · next hfail =>
      injection h with hb hs
      subst hb; subst hs
      refine ⟨rfl, rfl, fun _ => alistGet_alistRemove_self _ _,
        fun f hf => ?_, fun f hf => alistGet_alistRemove_ne _ _ _ hf,
        fun _ => rfl, fun _ => Or.inr (by simpa using hfail)⟩
      by_cases hfn : f = n
      · subst hfn
        exact alistGet_alistRemove_self _ _
      · rw [alistGet_alistRemove_ne _ _ _ hfn]
        exact hf

theorem clearDatLoop_dir (fail : PyStr → Bool) (names : List PyStr) (st : Storage) :
    (clearDatLoop fail names st).2.dirExists = st.dirExists ∧
    (clearDatLoop fail names st).2.cipher = st.cipher := by
  induction names generalizing st with
  | nil => exact ⟨rfl, rfl⟩
  | cons f rest ih =>
    unfold clearDatLoop
    split
    · split
      · exact ⟨rfl, rfl⟩
      · exact ih _
    · exact ih _

theorem clearDatLoop_none (fail : PyStr → Bool) (names : List PyStr)
    (st : Storage) (f : PyStr) (h : alistGet st.files f = none) :
    alistGet (clearDatLoop fail names st).2.files f = none := by
  induction names generalizing st with
  | nil => exact h
  | cons g rest ih =>
    unfold clearDatLoop
    split
    · split
      · exact h
      · apply ih
        by_cases hfg : f = g
        · subst hfg
          exact alistGet_alistRemove_self _ _
        · rw [alistGet_alistRemove_ne _ _ _ hfg]
          exact h
    · exact ih _ h

theorem clearDatLoop_true_removes (fail : PyStr → Bool) (names : List PyStr)
    (st : Storage) (f : PyStr)
    (hres : (clearDatLoop fail names st).1 = true) (hmem : f ∈ names)
    (hdat : (str ".dat").isSuffixOf f = true) (hne : f ≠ credFileName) :
    alistGet (clearDatLoop fail names st).2.files f = none := by
  induction names generalizing st with
  | nil => simp at hmem
  | cons g rest ih =>
    rw [List.mem_cons] at hmem
    unfold clearDatLoop at hres ⊢
    by_cases hg : ((str ".dat").isSuffixOf g && !(g == credFileName)) = true
    · rw [if_pos hg] at hres ⊢
      by_cases hf : fail g = true
      · rw [if_pos hf] at hres
        simp at hres
      · rw [if_neg hf] at hres ⊢
        rcases hmem with rfl | hmem
        · exact clearDatLoop_none _ _ _ _ (alistGet_alistRemove_self _ _)
        · exact ih _ hres hmem
    · rw [if_neg hg] at hres ⊢
      rcases hmem with rfl | hmem
      · exfalso
        apply hg
        rw [hdat]
        simp [hne]
      · exact ih _ hres hmem

theorem clearDatLoop_nofail (fail : PyStr → Bool) (h : ∀ f, fail f = false)
    (names : List PyStr) (st : Storage) :
    (clearDatLoop fail names st).1 = true := by
  induction names generalizing st with
  | nil => rfl
  | cons g rest ih =>
    unfold clearDatLoop
    split
    · rw [if_neg (by simp [h g])]
      exact ih _
    · exact ih _

theorem clearDatLoop_true_nofail (fail : PyStr → Bool) (names : List PyStr)
    (st : Storage) (hres : (clearDatLoop fail names st).1 = true) :
    ∀ f ∈ names, ((str ".dat").isSuffixOf f && !(f == credFileName)) = true →
      fail f = false := by
  induction names generalizing st with
  | nil =>
    intro f hf
    simp at hf
  | cons g rest ih =>
    intro f hmem hman
    rw [List.mem_cons] at hmem
    unfold clearDatLoop at hres
    by_cases hg : ((str ".dat").isSuffixOf g && !(g == credFileName)) = true
    · rw [if_pos hg] at hres
      by_cases hfg : fail g = true
      · rw [if_pos hfg] at hres
        simp at hres
      · rw [if_neg hfg] at hres
        rcases hmem with rfl | hmem
        · simpa using hfg
        · exact ih _ hres f hmem hman
    · rw [if_neg hg] at hres
      rcases hmem with rfl | hmem
      · exact absurd hman hg
      · exact ih _ hres f hmem hman

theorem mem_map_fst_of_alistGet {β : Type} (l : List (PyStr × β)) (f : PyStr)
    (h : alistGet l f ≠ none) : f ∈ l.map Prod.fst := by
  induction l with
  | nil => simp [alistGet] at h
  | cons kv rest ih =>
    obtain ⟨a, b⟩ := kv
    by_cases ha : a = f
    · rw [List.map_cons, ← ha]
      exact List.mem_cons_self _ _
    · simp only [alistGet, if_neg ha] at h
      rw [List.map_cons]
      exact List.mem_cons_of_mem _ (ih h)

theorem secureFileName_suffix (k : PyStr) :
    (str ".dat").isSuffixOf (secureFileName k) = true := by
  rw [List.isSuffixOf_iff_suffix]
  exact List.suffix_append k (str ".dat")

/-- C7 (counterexample): `clear_all_data` does not attempt every deletion
after a failure: with two secure-data files `a.dat` and `b.dat` where only
the removal of `a.dat` fails, the exception aborts the `.dat` loop and
`b.dat` — whose removal would have succeeded — is never deleted. -/
theorem clear_all_data_claim_counterexample :
    ¬ clearAllDeletesAllAttemptable
      ⟨some 7, true, [(str "a.dat", .corrupt), (str "b.dat", .corrupt)]⟩
      (fun f => f == str "a.dat") := by
  intro h
  have hb := h (str "b.dat") rfl (Or.inl (by decide)) (by decide)
  have hsome : (alistGet (clear_all_data
      ⟨some 7, true, [(str "a.dat", .corrupt), (str "b.dat", .corrupt)]⟩
      (fun f => f == str "a.dat")).2.files (str "b.dat")).isSome = true := by
    rfl
  rw [hb] at hsome
  simp at hsome

/-- C7 (amended): `clear_all_data` deletes the credentials file, the
config file, the key file and every secure-data file, attempting each of
its four blocks regardless of earlier failures, but a failure inside the
secure-data loop skips that loop's remaining files; it returns `true` only
when every attempted deletion succeeded.  When it returns `true`,
`load_credentials`, `load_config` and `load_secure_data(k)` for every `k`
are all absent and the storage directory still exists; when no deletion
fails it returns `true`; and the credentials, config and key files are
each removed whenever their own removal succeeds, whatever happens to the
other blocks. -/
theorem clear_all_data_spec :
    ∀ (st : Storage) (fail : PyStr → Bool),
      ((clear_all_data st fail).1 = true →
        load_credentials (clear_all_data st fail).2 = none ∧
        load_config (clear_all_data st fail).2 = none ∧
        (∀ k, load_secure_data (clear_all_data st fail).2 k = none) ∧
        (clear_all_data st fail).2.dirExists = st.dirExists) ∧
      ((∀ f, fail f = false) → (clear_all_data st fail).1 = true) ∧
      (fail credFileName = false →
        alistGet (clear_all_data st fail).2.files credFileName = none) ∧
      (fail configFileName = false →
        alistGet (clear_all_data st fail).2.files configFileName = none) ∧
      (fail keyFileName = false →
        alistGet (clear_all_data st fail).2.files keyFileName = none) ∧
      ((clear_all_data st fail).1 = true →
        (alistGet st.files credFileName = none ∨ fail credFileName = false) ∧
        (alistGet st.files configFileName = none ∨ fail configFileName = false) ∧
        (alistGet st.files keyFileName = none ∨ fail keyFileName = false) ∧
        (∀ f, alistGet st.files f ≠ none → (str ".dat").isSuffixOf f = true →
          f ≠ credFileName → fail f = false)) := by
  intro st fail
  rcases hcc : clear_credentials st fail with ⟨b1, st1⟩
  rcases hcf : clear_config st1 fail with ⟨b2, st2⟩
  rcases hck : clearKeyStep st2 fail with ⟨b3, st3⟩
  rcases hdl : clearDatLoop fail (st3.files.map Prod.fst) st3 with ⟨b4, st4⟩
  have hall : clear_all_data st fail = (b1 && b2 && b3 && b4, st4) := by
    unfold clear_all_data
    rw [hcc]; dsimp only; rw [hcf]; dsimp only; rw [hck]; dsimp only; rw [hdl]
  rw [hall]
  unfold clear_credentials at hcc
  unfold clear_config at hcf
  unfold clearKeyStep at hck
  obtain ⟨hd1, hcp1, ht1, hn1, hne1, hf1, ha1⟩ := removeFileStep_cases _ _ _ _ _ hcc
  obtain ⟨hd2, hcp2, ht2, hn2, hne2, hf2, ha2⟩ := removeFileStep_cases _ _ _ _ _ hcf
  obtain ⟨hd3, hcp3, ht3, hn3, hne3, hf3, ha3⟩ := removeFileStep_cases _ _ _ _ _ hck
  have hloopnone : ∀ f, alistGet st3.files f = none → alistGet st4.files f = none := by
    intro f hf
    have := clearDatLoop_none fail (st3.files.map Prod.fst) st3 f hf
    rw [hdl] at this
    exact this
  refine ⟨?_, ?_, ?_, ?_, ?_, ?_⟩
  · intro h
    simp only [Bool.and_eq_true] at h
    obtain ⟨⟨⟨e1, e2⟩, e3⟩, e4⟩ := h
    have hcred4 : alistGet st4.files credFileName = none :=
      hloopnone _ (hn3 _ (hn2 _ (ht1 e1)))
    have hcfg4 : alistGet st4.files configFileName = none :=
      hloopnone _ (hn3 _ (ht2 e2))
    refine ⟨?_, ?_, ?_, ?_⟩
    · unfold load_credentials
      rw [hcred4]
    · unfold load_config
      rw [hcfg4]
    · intro k
      unfold load_secure_data
      by_cases hsk : secureFileName k = credFileName
      · rw [hsk, hcred4]
      · cases hpres : alistGet st3.files (secureFileName k) with
        | none => rw [hloopnone _ hpres]
        | some v =>
          have hmem : secureFileName k ∈ st3.files.map Prod.fst :=
            mem_map_fst_of_alistGet _ _ (by rw [hpres]; exact fun hc => Option.noConfusion hc)
          have habs := clearDatLoop_true_removes fail (st3.files.map Prod.fst)
            st3 (secureFileName k) (by rw [hdl]; exact e4) hmem
            (secureFileName_suffix k) hsk
          rw [hdl] at habs
          rw [habs]
    · have hld := clearDatLoop_dir fail (st3.files.map Prod.fst) st3
      rw [hdl] at hld
      rw [hld.1, hd3, hd2, hd1]
  · intro hf
    have e1 := hf1 (hf credFileName)
    have e2 := hf2 (hf configFileName)
    have e3 := hf3 (hf keyFileName)
    have e4 : b4 = true := by
      have := clearDatLoop_nofail fail hf (st3.files.map Prod.fst) st3
      rw [hdl] at this
      exact this
    rw [e1, e2, e3, e4]
    rfl
  · intro hfc
    exact hloopnone _ (hn3 _ (hn2 _ (ht1 (hf1 hfc))))
  · intro hfc
    exact hloopnone _ (hn3 _ (ht2 (hf2 hfc)))
  · intro hfc
    exact hloopnone _ (ht3 (hf3 hfc))
  · intro h
    simp only [Bool.and_eq_true] at h
    obtain ⟨⟨⟨e1, e2⟩, e3⟩, e4⟩ := h
    refine ⟨ha1 e1, ?_, ?_, ?_⟩
    · rcases ha2 e2 with h2 | h2
      · rw [hne1 _ (by decide)] at h2
        exact Or.inl h2
      · exact Or.inr h2
    · rcases ha3 e3 with h3 | h3
      · rw [hne2 _ (by decide), hne1 _ (by decide)] at h3
        exact Or.inl h3
      · exact Or.inr h3
    · intro f hpres hdat hne
      have hf1' : alistGet st1.files f = alistGet st.files f := hne1 f hne
      have hf2' : alistGet st2.files f = alistGet st1.files f :=
        hne2 f (fun he => absurd (he ▸ hdat) (by decide))
      have hf3' : alistGet st3.files f = alistGet st2.files f :=
        hne3 f (fun he => absurd (he ▸ hdat) (by decide))
      have hpres3 : alistGet st3.files f ≠ none := by
        rw [hf3', hf2', hf1']
        exact hpres
      have hmem := mem_map_fst_of_alistGet _ _ hpres3
      exact clearDatLoop_true_nofail fail (st3.files.map Prod.fst) st3
        (by rw [hdl]; exact e4) f hmem (by rw [hdat]; simp [hne])

/-- C7 (witness): a concrete failure-free run on a populated store: the
result is `true`, every load is absent afterwards, and the storage
directory still exists. -/
theorem clear_all_data_spec_witness :
    (clear_all_data ⟨some 7, true,
      [(credFileName, .corrupt), (configFileName, .jsonText (.jObj [])),
       (keyFileName, .keyBytes 7), (str "tok.dat", .corrupt)]⟩
      (fun _ => false)).1 = true ∧
    load_credentials (clear_all_data ⟨some 7, true,
      [(credFileName, .corrupt), (configFileName, .jsonText (.jObj [])),
       (keyFileName, .keyBytes 7), (str "tok.dat", .corrupt)]⟩
      (fun _ => false)).2 = none ∧
    load_config (clear_all_data ⟨some 7, true,
      [(credFileName, .corrupt), (configFileName, .jsonText (.jObj [])),
       (keyFileName, .keyBytes 7), (str "tok.dat", .corrupt)]⟩
      (fun _ => false)).2 = none ∧
    load_secure_data (clear_all_data ⟨some 7, true,
      [(credFileName, .corrupt), (configFileName, .jsonText (.jObj [])),
       (keyFileName, .keyBytes 7), (str "tok.dat", .corrupt)]⟩
      (fun _ => false)).2 (str "tok") = none ∧
    (clear_all_data ⟨some 7, true,
      [(credFileName, .corrupt), (configFileName, .jsonText (.jObj [])),
       (keyFileName, .keyBytes 7), (str "tok.dat", .corrupt)]⟩
      (fun _ => false)).2.dirExists = true := by
  have h := clear_all_data_spec ⟨some 7, true,
    [(credFileName, .corrupt), (configFileName, .jsonText (.jObj [])),
     (keyFileName, .keyBytes 7), (str "tok.dat", .corrupt)]⟩ (fun _ => false)
  have h2 := h.2.1 (fun f => rfl)
  obtain ⟨ha, hb, hc, hd⟩ := h.1 h2
  exact ⟨h2, ha, hb, hc (str "tok"), hd⟩

/-- C9 (witness): the amended bounds at a concrete SSID. -/
theorem clean_ssid_bounds_witness :
    (clean_ssid_str (str "  CampusWiFi  ")).length ≤ 32 ∧
    32 ≤ 'C'.toNat := by
  refine ⟨(clean_ssid_bounds (str "  CampusWiFi  ")).1, ?_⟩
  exact (clean_ssid_bounds (str "  CampusWiFi  ")).2 'C' (by decide)
